import Mathlib

set_option linter.unusedVariables false

/-!
Verification development for the RPS-PLUS-ADK repository.

The repository implements a best-of-three rock-paper-scissors variant with a
single-use "bomb" move.  The files embedded here are:

* `src/tools.py` — pure rule functions `validate_move` and `resolve_round`;
* `src/agent.py` — the `AIAgent` decision engine (`update_history`,
  `get_counter_move`, `analyze_patterns`, `detect_repeating_pattern`,
  `get_ai_move`, `_would_win`, `reset`);
* the bomb-veto fallback of `src/main.py` (lines 116–119).

`agent.py` writes the whole class body twice; the second set of method
definitions overrides the first and the two are line-for-line the same logic,
so a single embedding covers both copies.

Modelling conventions:

* Moves and difficulties are `String`s, exactly as in the Python source.
* Python's shared pseudo-random generator is modelled as an explicit stream
  `rs : ℕ → ℚ` of `random.random()` draws, consumed in call order (`rs 0` is
  the first `random.random()` executed on that call, `rs 1` the second, …),
  together with one `pick : Fin 3` draw for the at-most-one terminal
  `random.choice(["rock", "paper", "scissors"])`.
* Fallible code is `Option`-valued: `analyze_patterns` returns `none` exactly
  where the Python dict comprehension divides by `total = 0` and raises
  `ZeroDivisionError`; `get_ai_move` propagates that `none`.
* `get_ai_move` mutates nothing in the source (it only reads `self`), so it is
  embedded as a pure function from the agent state to a move.
-/

/-- Modelled from the spec: `config.py` is not part of the source tree under
verification; it provides the constant `VALID_MOVES`.  The spec fixes the move
set as the enumeration {rock, paper, scissors, bomb}. -/
def VALID_MOVES : List String := ["rock", "paper", "scissors", "bomb"]

/-- Result of `tools.validate_move`: the Python function returns either
`{"valid": True, "move": m}` or `{"valid": False, "reason": r}`. -/
inductive ValidationResult where
  | valid (move : String)
  | invalid (reason : String)
deriving DecidableEq, Repr

/-- Python's `move.lower().strip()`: lowercase every character, then strip
whitespace from both ends (`Char.isWhitespace` covers the ASCII whitespace
Python strips; both normalizations agree on ASCII input). -/
def lowerStrip (s : String) : String :=
  let ls := (s.data.map Char.toLower).dropWhile Char.isWhitespace
  String.mk (ls.reverse.dropWhile Char.isWhitespace).reverse

/-- `tools.validate_move` (src/tools.py lines 24–59): normalize with
`move.lower().strip()`, reject non-members of `VALID_MOVES`, reject a second
bomb, otherwise return the normalized move. -/
def validate_move (move : String) (bomb_used : Bool) : ValidationResult :=
  let m := lowerStrip move
  if m ∉ VALID_MOVES then .invalid "Invalid move"
  else if m = "bomb" ∧ bomb_used = true then .invalid "Bomb already used"
  else .valid m

/-- `tools.resolve_round` (src/tools.py lines 62–113).  The final dictionary
lookup `rules[user_move]` is only reached for `user_move` in
{rock, scissors, paper}; the trailing `else` arm of the embedded lookup
(mapping any other string to "rock") corresponds to the `KeyError` domain the
source never exercises on valid moves. -/
def resolve_round (user_move bot_move : String) : String :=
  if user_move = bot_move then "draw"
  else if user_move = "bomb" ∧ bot_move = "bomb" then "draw"
  else if user_move = "bomb" then "user"
  else if bot_move = "bomb" then "bot"
  else
    if (if user_move = "rock" then "scissors"
        else if user_move = "scissors" then "paper"
        else "rock") = bot_move
    then "user" else "bot"

/-- The `AIAgent` state (src/agent.py): difficulty plus the three history
lists.  `move_patterns` is initialized in the source but never read or
written afterwards, and `pattern_length` is the constant 3 (see
`pattern_length` below), so neither is carried in the state. -/
structure AIAgent where
  difficulty : String
  move_history : List String
  opponent_history : List String
  last_moves : List String
deriving DecidableEq, Repr

/-- `self.pattern_length` — set to 3 in `__init__` and never reassigned. -/
def pattern_length : Nat := 3

/-- `AIAgent.__init__(difficulty)`: empty histories. -/
def AIAgent.make (difficulty : String) : AIAgent :=
  { difficulty := difficulty, move_history := [], opponent_history := [],
    last_moves := [] }

/-- `AIAgent.reset`: clear the three history lists, keep the difficulty. -/
def AIAgent.clear (a : AIAgent) : AIAgent :=
  { a with move_history := [], opponent_history := [], last_moves := [] }

/-- `AIAgent.update_history(player_move, bot_move)` (src/agent.py lines
278–286): append to each list, then pop the head of `last_moves` once if its
length exceeds 10. -/
def update_history (a : AIAgent) (player_move bot_move : String) : AIAgent :=
  let lm := a.last_moves ++ [player_move]
  { a with
    opponent_history := a.opponent_history ++ [player_move],
    move_history := a.move_history ++ [bot_move],
    last_moves := if 10 < lm.length then lm.drop 1 else lm }

/-- N successive `update_history` calls, one per completed round:
`rounds[i] = (player move of round i, bot move of round i)`. -/
def recordRounds (a : AIAgent) (rounds : List (String × String)) : AIAgent :=
  rounds.foldl (fun s r => update_history s r.1 r.2) a

/-- `AIAgent.get_counter_move` (src/agent.py lines 288–296): dictionary
lookup with default "rock" via `.get(move, "rock")`. -/
def get_counter_move (move : String) : String :=
  if move = "rock" then "paper"
  else if move = "paper" then "scissors"
  else if move = "scissors" then "rock"
  else if move = "bomb" then "bomb"
  else "rock"

/-- `AIAgent.analyze_patterns` (src/agent.py lines 298–311).  Returns the
(rock, paper, scissors) frequency triple in the insertion order of the
`move_counts` dict.  The Python comprehension `count / total` raises
`ZeroDivisionError` when the history is non-empty yet contains none of rock,
paper, scissors (then `total = 0`); that raise is the `none` branch. -/
def analyze_patterns (hist : List String) : Option (ℚ × ℚ × ℚ) :=
  if hist = [] then some (33/100, 33/100, 33/100)
  else
    let r := hist.count "rock"
    let p := hist.count "paper"
    let s := hist.count "scissors"
    let total := r + p + s
    if total = 0 then none
    else some ((r : ℚ) / total, (p : ℚ) / total, (s : ℚ) / total)

/-- Python's `max(patterns, key=patterns.get)` over the frequency dict, whose
keys iterate in insertion order rock, paper, scissors; `max` keeps the first
key attaining the maximal value. -/
def argmax3 (r p s : ℚ) : String :=
  if p > r then (if s > p then "scissors" else "paper")
  else if s > r then "scissors" else "rock"

/-- The pattern-occurrence count of `AIAgent.detect_repeating_pattern`
(src/agent.py lines 319–322): the number of offsets
`i ∈ range(len(hist) - pattern_length)` with `hist[i:i+3] == pat`.  Python's
`range` of a negative bound is empty, matching truncated `Nat` subtraction. -/
def patternCount (hist : List String) (pat : List String) : Nat :=
  (List.range (hist.length - pattern_length)).countP
    (fun i => decide ((hist.drop i).take pattern_length = pat))

/-- `AIAgent.detect_repeating_pattern` (src/agent.py lines 313–330): if the
recency window holds at least 3 entries and its last 3 entries occur at least
twice among the scanned offsets of the full opponent history, return the
counter of `last_moves[(3 % 3)] = last_moves[0]`.  `List.getD` stands in for
the guarded Python indexing. -/
def detect_repeating_pattern (a : AIAgent) : Option String :=
  if pattern_length ≤ a.last_moves.length then
    if 2 ≤ patternCount a.opponent_history
        (a.last_moves.drop (a.last_moves.length - pattern_length)) then
      if pattern_length % 3 < a.last_moves.length then
        some (get_counter_move (a.last_moves.getD (pattern_length % 3) ""))
      else none
    else none
  else none

/-- `AIAgent._would_win` (src/agent.py lines 395–409).  The final dictionary
lookup `rules[bot_move]` is only reached for `bot_move` in
{rock, scissors, paper}; the trailing `false` arm corresponds to the
`KeyError` domain the source never exercises on recorded moves. -/
def would_win (bot_move player_move : String) : Bool :=
  if bot_move = player_move then false
  else if bot_move = "bomb" then true
  else if player_move = "bomb" then false
  else if bot_move = "rock" then player_move = "scissors"
  else if bot_move = "scissors" then player_move = "paper"
  else if bot_move = "paper" then player_move = "rock"
  else false

/-- The `bot_wins` sum of `AIAgent.get_ai_move` (src/agent.py lines 350–351):
`sum(1 for i, move in enumerate(self.move_history) if
self._would_win(move, self.opponent_history[i]))`.  On recorded states the
two histories are index-aligned and equally long, so pairing by `zip` is the
faithful reading (the source would raise `IndexError` only if `move_history`
outgrew `opponent_history`, which recording never produces). -/
def bot_wins (a : AIAgent) : Nat :=
  (a.move_history.zip a.opponent_history).countP (fun mo => would_win mo.1 mo.2)

/-- `random.choice(["rock", "paper", "scissors"])`. -/
def baseChoice : Fin 3 → String
  | 0 => "rock"
  | 1 => "paper"
  | 2 => "scissors"

/-- Strategy 4 of `AIAgent.get_ai_move` (src/agent.py lines 357–393): the
difficulty-weighted final choice.  `r1` is the first `random.random()` drawn
inside this step and `r2` the second (consumed only inside the hard/expert
smart branch). -/
def difficulty_move (d : String) (counter : String) (r1 r2 : ℚ)
    (pick : Fin 3) : String :=
  if d = "easy" then
    if r1 < 3/10 then counter else baseChoice pick
  else if d = "medium" then
    if r1 < 3/5 then counter else baseChoice pick
  else if d = "hard" then
    if r1 < 4/5 then
      if r2 < 3/5 then counter else get_counter_move counter
    else baseChoice pick
  else if d = "expert" then
    if r1 < 9/10 then
      if r2 < 7/10 then counter
      else get_counter_move (get_counter_move counter)
    else baseChoice pick
  else counter

/-- Strategies 2–4 of `AIAgent.get_ai_move` (src/agent.py lines 342–393),
entered after the pattern step has fallen through.  `k` is the index of the
next unconsumed `random.random()` draw.  A `none` result is the
`ZeroDivisionError` raised inside `analyze_patterns`. -/
def strategies234 (a : AIAgent) (bot_bomb_used : Bool) (rs : ℕ → ℚ) (k : ℕ)
    (pick : Fin 3) : Option String :=
  match analyze_patterns a.opponent_history with
  | none => none
  | some freqs =>
    let counter := get_counter_move (argmax3 freqs.1 freqs.2.1 freqs.2.2)
    if bot_bomb_used = false ∧ 2 ≤ a.opponent_history.length then
      if 2 ≤ a.opponent_history.length ∧
          bot_wins a < a.opponent_history.length / 2 then
        if rs k < 2/5 then some "bomb"
        else some (difficulty_move a.difficulty counter (rs (k+1)) (rs (k+2)) pick)
      else some (difficulty_move a.difficulty counter (rs k) (rs (k+1)) pick)
    else some (difficulty_move a.difficulty counter (rs k) (rs (k+1)) pick)

/-- `AIAgent.get_ai_move(player_bomb_used, bot_bomb_used)` (src/agent.py
lines 332–393).  The Python condition `pattern_move and random.random() < 0.6`
short-circuits, so the gate draw `rs 0` is consumed only when a pattern was
detected (`get_counter_move` never returns the empty string, so a returned
pattern move is always truthy).  `player_bomb_used` is accepted but never
read, exactly as in the source. -/
def get_ai_move (a : AIAgent) (player_bomb_used bot_bomb_used : Bool)
    (rs : ℕ → ℚ) (pick : Fin 3) : Option String :=
  match detect_repeating_pattern a with
  | some pm =>
      if rs 0 < 3/5 then some pm
      else strategies234 a bot_bomb_used rs 1 pick
  | none => strategies234 a bot_bomb_used rs 0 pick

/-- The bomb-veto fallback of `src/main.py` (lines 116–119): if the agent
proposes "bomb" although its bomb is already spent, the controller substitutes
a random base move. -/
def bomb_veto (bot_move : String) (bot_bomb_used : Bool)
    (substitute : Fin 3) : String :=
  if bot_move = "bomb" ∧ bot_bomb_used = true then baseChoice substitute
  else bot_move

/-- The cyclic rock-beats-scissors-beats-paper-beats-rock dominance, used to
state the claims about `resolve_round` and `would_win`. -/
def rps_beats (m o : String) : Prop :=
  (m = "rock" ∧ o = "scissors") ∨ (m = "scissors" ∧ o = "paper") ∨
    (m = "paper" ∧ o = "rock")

instance (m o : String) : Decidable (rps_beats m o) := by
  unfold rps_beats; infer_instance

example : resolve_round "rock" "scissors" = "user" := by decide
example : resolve_round "bomb" "rock" = "user" := by decide
example : resolve_round "rock" "rock" = "draw" := by decide
example : resolve_round "paper" "scissors" = "bot" := by decide
example : validate_move "rock" false = .valid "rock" := by decide
example : validate_move "bomb" true = .invalid "Bomb already used" := by decide
example : analyze_patterns ["bomb"] = none := by decide
example :
    detect_repeating_pattern
      { difficulty := "hard", move_history := [],
        opponent_history := ["rock", "paper", "scissors", "rock", "paper",
          "scissors", "rock", "paper", "scissors"],
        last_moves := ["rock", "paper", "scissors", "rock", "paper",
          "scissors", "rock", "paper", "scissors"] } = some "paper" := by
  decide

theorem get_counter_move_mem (m : String) : get_counter_move m ∈ VALID_MOVES := by
  unfold get_counter_move VALID_MOVES
  split_ifs <;> simp

theorem baseChoice_mem (p : Fin 3) : baseChoice p ∈ VALID_MOVES := by
  fin_cases p <;> decide

theorem difficulty_move_mem (d c : String) (r1 r2 : ℚ) (p : Fin 3)
    (hc : c ∈ VALID_MOVES) : difficulty_move d c r1 r2 p ∈ VALID_MOVES := by
  unfold difficulty_move
  split_ifs <;>
    first
      | exact hc
      | exact baseChoice_mem p
      | exact get_counter_move_mem _

/-- C1: the spec asserts `get_ai_move` never raises on a recorded history, but
after the single recorded round (player "bomb", bot "rock") the frequency
computation of `analyze_patterns` has `total = 0` and the Python source raises
`ZeroDivisionError`; the `none` result is exactly that raise. -/
theorem get_ai_move_raises_on_all_bomb_history :
    get_ai_move (recordRounds (AIAgent.make "hard") [("bomb", "rock")])
      true false (fun _ => 0) 0 = none := by decide

/-- C7: `resolve_round` returns "draw" exactly on equal moves (bomb vs bomb
included), a lone bomb wins for its side, and otherwise the cyclic dominance
rock beats scissors beats paper beats rock decides the winner. -/
theorem resolve_round_spec :
    ∀ a ∈ VALID_MOVES, ∀ b ∈ VALID_MOVES,
      (resolve_round a b = "draw" ↔ a = b) ∧
      (a = "bomb" → b ≠ "bomb" → resolve_round a b = "user") ∧
      (b = "bomb" → a ≠ "bomb" → resolve_round a b = "bot") ∧
      (a ≠ "bomb" → b ≠ "bomb" → a ≠ b →
        resolve_round a b = if rps_beats a b then "user" else "bot") := by
  decide

theorem resolve_round_spec_witness :
    "bomb" ∈ VALID_MOVES ∧ "rock" ∈ VALID_MOVES ∧
      resolve_round "bomb" "rock" = "user" :=
  ⟨by decide, by decide,
    (resolve_round_spec "bomb" (by decide) "rock" (by decide)).2.1 rfl
      (by decide)⟩

/-- C8: `validate_move` normalizes case- and whitespace-insensitively, rejects
non-members of the four-move set with the "not a recognized move" reason
(literal string "Invalid move"), rejects a replayed bomb with the "bomb
already used" reason (literal string "Bomb already used"), and otherwise
returns the normalized move; as embedded it is a pure function. -/
theorem validate_move_spec (s : String) (bomb_used : Bool) :
    (lowerStrip s ∉ VALID_MOVES →
      validate_move s bomb_used = .invalid "Invalid move") ∧
    (lowerStrip s ∈ VALID_MOVES → lowerStrip s = "bomb" → bomb_used = true →
      validate_move s bomb_used = .invalid "Bomb already used") ∧
    (lowerStrip s ∈ VALID_MOVES → ¬(lowerStrip s = "bomb" ∧ bomb_used = true) →
      validate_move s bomb_used = .valid (lowerStrip s)) := by
  unfold validate_move
  refine ⟨fun h => ?_, fun h hb hu => ?_, fun h hnb => ?_⟩
  · simp only [if_pos h]
  · rw [if_neg (by simp [h]), if_pos ⟨hb, hu⟩]
  · rw [if_neg (by simp [h]), if_neg hnb]

theorem validate_move_spec_witness :
    lowerStrip "  ROCK  " = "rock" ∧
      validate_move "  ROCK  " false = .valid "rock" := by
  refine ⟨by decide, ?_⟩
  have h := (validate_move_spec "  ROCK  " false).2.2 (by decide) (by decide)
  rw [h]; decide

/-- C9: a validly recorded ten-round history whose recency window starts with
"bomb" and whose last three window entries repeat twice earlier makes the
pattern branch return `get_counter_move "bomb" = "bomb"` even though the
engine's bomb flag is already true; the match controller's veto then
substitutes a random base move. -/
theorem pattern_branch_returns_bomb_despite_spent_bomb :
    get_ai_move
        (recordRounds (AIAgent.make "expert")
          [("bomb", "bomb"), ("rock", "rock"), ("paper", "rock"),
            ("scissors", "rock"), ("rock", "rock"), ("paper", "rock"),
            ("scissors", "rock"), ("rock", "rock"), ("paper", "rock"),
            ("scissors", "rock")])
        true true (fun _ => 0) 0 = some "bomb" ∧
      bomb_veto "bomb" true 0 = "rock" := by
  have hd : detect_repeating_pattern
      (recordRounds (AIAgent.make "expert")
        [("bomb", "bomb"), ("rock", "rock"), ("paper", "rock"),
          ("scissors", "rock"), ("rock", "rock"), ("paper", "rock"),
          ("scissors", "rock"), ("rock", "rock"), ("paper", "rock"),
          ("scissors", "rock")]) = some "bomb" := by decide
  have h0 : (0 : ℚ) < 3/5 := by simp
  exact ⟨by simp [get_ai_move, hd, h0], by decide⟩

/-- C10: `get_ai_move` never reads its `player_bomb_used` argument, so two
calls on identical state, identical random draws and identical own-bomb flag
that differ only in the opponent-bomb flag return the same move. -/
theorem get_ai_move_ignores_player_bomb_flag (a : AIAgent) (p1 p2 b : Bool)
    (rs : ℕ → ℚ) (pick : Fin 3) :
    get_ai_move a p1 b rs pick = get_ai_move a p2 b rs pick := rfl

/-- C2: whenever the recency window holds at least 3 entries and its last 3
entries occur at least twice in the scanned offsets of the full opponent
history, a passing 60% gate makes `get_ai_move` return the counter of the
window's element at index (3 mod 3) = 0, its first element. -/
theorem pattern_branch_counters_window_head (a : AIAgent) (pbu bbu : Bool)
    (rs : ℕ → ℚ) (pick : Fin 3)
    (h3 : 3 ≤ a.last_moves.length)
    (hrep : 2 ≤ patternCount a.opponent_history
      (a.last_moves.drop (a.last_moves.length - 3)))
    (hgate : rs 0 < 3/5) :
    get_ai_move a pbu bbu rs pick =
      some (get_counter_move (a.last_moves.getD 0 "")) := by
  have e : pattern_length = 3 := rfl
  have hd : detect_repeating_pattern a =
      some (get_counter_move (a.last_moves.getD 0 "")) := by
    unfold detect_repeating_pattern
    rw [e]
    rw [if_pos h3, if_pos hrep, if_pos (by omega)]
  simp [get_ai_move, hd, hgate]

theorem pattern_branch_counters_window_head_witness :
    3 ≤ (["rock", "paper", "scissors", "rock", "paper", "scissors", "rock",
        "paper", "scissors"] : List String).length ∧
      get_ai_move
          { difficulty := "hard",
            move_history := ["rock", "rock", "rock", "rock", "rock", "rock",
              "rock", "rock", "rock"],
            opponent_history := ["rock", "paper", "scissors", "rock", "paper",
              "scissors", "rock", "paper", "scissors"],
            last_moves := ["rock", "paper", "scissors", "rock", "paper",
              "scissors", "rock", "paper", "scissors"] }
          false false (fun _ => 0) 0 = some "paper" := by
  refine ⟨by decide, ?_⟩
  have h := pattern_branch_counters_window_head
    { difficulty := "hard",
      move_history := ["rock", "rock", "rock", "rock", "rock", "rock",
        "rock", "rock", "rock"],
      opponent_history := ["rock", "paper", "scissors", "rock", "paper",
        "scissors", "rock", "paper", "scissors"],
      last_moves := ["rock", "paper", "scissors", "rock", "paper",
        "scissors", "rock", "paper", "scissors"] }
    false false (fun _ => 0) 0 (by decide) (by decide) (by simp)
  rw [h]; decide

/-- C3: with the pattern step fallen through, an unused own bomb, at least 2
recorded rounds and a past-win count strictly below half the round count, a
passing 40% gate makes `get_ai_move` return "bomb" immediately; the second
conjunct characterizes the `would_win` count semantics (equal moves checked
first, own bomb wins, opponent bomb loses, cyclic dominance otherwise). -/
theorem bomb_branch_fires_when_losing (a : AIAgent) (pbu : Bool)
    (rs : ℕ → ℚ) (pick : Fin 3)
    (hd : detect_repeating_pattern a = none)
    (ha : (analyze_patterns a.opponent_history).isSome = true)
    (h2 : 2 ≤ a.opponent_history.length)
    (hlose : bot_wins a < a.opponent_history.length / 2)
    (hgate : rs 0 < 2/5) :
    get_ai_move a pbu false rs pick = some "bomb" ∧
      (∀ m ∈ VALID_MOVES, ∀ o ∈ VALID_MOVES,
        (would_win m o = true ↔
          m ≠ o ∧ (m = "bomb" ∨ (o ≠ "bomb" ∧ rps_beats m o)))) := by
  obtain ⟨f, hf⟩ := Option.isSome_iff_exists.mp ha
  refine ⟨?_, by decide⟩
  simp [get_ai_move, hd, strategies234, hf, h2, hlose, hgate]

theorem bomb_branch_fires_when_losing_witness :
    detect_repeating_pattern (recordRounds (AIAgent.make "hard")
        [("rock", "scissors"), ("rock", "scissors")]) = none ∧
      bot_wins (recordRounds (AIAgent.make "hard")
        [("rock", "scissors"), ("rock", "scissors")]) < 2 / 2 ∧
      get_ai_move (recordRounds (AIAgent.make "hard")
          [("rock", "scissors"), ("rock", "scissors")])
        true false (fun _ => 0) 0 = some "bomb" := by
  refine ⟨by decide, by decide, ?_⟩
  exact (bomb_branch_fires_when_losing
    (recordRounds (AIAgent.make "hard")
      [("rock", "scissors"), ("rock", "scissors")])
    true (fun _ => 0) 0 (by decide) (by decide) (by decide) (by decide)
    (by simp)).1

/-- C4: when neither the pattern branch nor the bomb branch returns, the
difficulty-weighted final step returns, per tier, the baseline counter with
probability 0.3 (easy) / 0.6 (medium), the smart branch with probability 0.8
(hard: 0.6 counter, 0.4 second-order counter) / 0.9 (expert: 0.7 counter,
0.3 third-order counter), otherwise a uniform base-move choice, and any
unrecognized tier falls through to the counter. -/
theorem difficulty_weighted_final_step (a : AIAgent) (pbu bbu : Bool)
    (rs : ℕ → ℚ) (pick : Fin 3) (f : ℚ × ℚ × ℚ) (c : String)
    (hd : detect_repeating_pattern a = none)
    (hf : analyze_patterns a.opponent_history = some f)
    (hc : c = get_counter_move (argmax3 f.1 f.2.1 f.2.2))
    (hnb : ¬(bbu = false ∧ 2 ≤ a.opponent_history.length ∧
      bot_wins a < a.opponent_history.length / 2)) :
    (a.difficulty = "easy" → get_ai_move a pbu bbu rs pick =
      some (if rs 0 < 3/10 then c else baseChoice pick)) ∧
    (a.difficulty = "medium" → get_ai_move a pbu bbu rs pick =
      some (if rs 0 < 3/5 then c else baseChoice pick)) ∧
    (a.difficulty = "hard" → get_ai_move a pbu bbu rs pick =
      some (if rs 0 < 4/5 then
          (if rs 1 < 3/5 then c else get_counter_move c)
        else baseChoice pick)) ∧
    (a.difficulty = "expert" → get_ai_move a pbu bbu rs pick =
      some (if rs 0 < 9/10 then
          (if rs 1 < 7/10 then c else get_counter_move (get_counter_move c))
        else baseChoice pick)) ∧
    (a.difficulty ∉ (["easy", "medium", "hard", "expert"] : List String) →
      get_ai_move a pbu bbu rs pick = some c) := by
  have key : get_ai_move a pbu bbu rs pick =
      some (difficulty_move a.difficulty c (rs 0) (rs 1) pick) := by
    by_cases ho : bbu = false ∧ 2 ≤ a.opponent_history.length
    · have hb : ¬(bot_wins a < a.opponent_history.length / 2) :=
        fun hb => hnb ⟨ho.1, ho.2, hb⟩
      simp [get_ai_move, hd, strategies234, hf, ho.1, ho.2, hb, hc]
    · simp [get_ai_move, hd, strategies234, hf, ho, hc]
  rw [key]
  unfold difficulty_move
  refine ⟨fun h => ?_, fun h => ?_, fun h => ?_, fun h => ?_, fun h => ?_⟩
  · rw [if_pos h]
  · rw [if_neg (by rw [h]; decide), if_pos h]
  · rw [if_neg (by rw [h]; decide), if_neg (by rw [h]; decide), if_pos h]
  · rw [if_neg (by rw [h]; decide), if_neg (by rw [h]; decide),
      if_neg (by rw [h]; decide), if_pos h]
  · simp only [List.mem_cons, List.not_mem_nil, or_false, not_or] at h
    rw [if_neg h.1, if_neg h.2.1, if_neg h.2.2.1, if_neg h.2.2.2]

theorem difficulty_weighted_final_step_witness :
    (AIAgent.make "easy").difficulty = "easy" ∧
      get_ai_move (AIAgent.make "easy") false false (fun _ => 0) 0 =
        some "paper" := by
  refine ⟨by decide, ?_⟩
  have h := (difficulty_weighted_final_step (AIAgent.make "easy") false false
      (fun _ => 0) 0 (33/100, 33/100, 33/100) "paper"
      (by decide) rfl
      (by simp [argmax3, get_counter_move])
      (by decide)).1 rfl
  rw [h]
  simp

theorem recordRounds_opponent_history (rounds : List (String × String))
    (a : AIAgent) :
    (recordRounds a rounds).opponent_history =
      a.opponent_history ++ rounds.map Prod.fst := by
  induction rounds generalizing a with
  | nil => simp [recordRounds]
  | cons r rs ih =>
    show (recordRounds (update_history a r.1 r.2) rs).opponent_history = _
    rw [ih]
    simp [update_history]

theorem recordRounds_move_history (rounds : List (String × String))
    (a : AIAgent) :
    (recordRounds a rounds).move_history =
      a.move_history ++ rounds.map Prod.snd := by
  induction rounds generalizing a with
  | nil => simp [recordRounds]
  | cons r rs ih =>
    show (recordRounds (update_history a r.1 r.2) rs).move_history = _
    rw [ih]
    simp [update_history]

theorem window_step (l : List String) (p : String) :
    (if 10 < (l.drop (l.length - 10) ++ [p]).length
      then (l.drop (l.length - 10) ++ [p]).drop 1
      else l.drop (l.length - 10) ++ [p]) =
    (l ++ [p]).drop ((l ++ [p]).length - 10) := by
  have hlen : (l.drop (l.length - 10)).length = l.length - (l.length - 10) :=
    List.length_drop _ _
  by_cases hc : 10 ≤ l.length
  · rw [if_pos (by
      simp only [List.length_append, hlen, List.length_cons,
        List.length_nil]
      omega)]
    rw [List.drop_append_eq_append_drop, List.drop_append_eq_append_drop,
      List.drop_drop, hlen]
    have e1 : l.length - 10 + 1 = (l ++ [p]).length - 10 := by
      simp only [List.length_append, List.length_cons, List.length_nil]
      omega
    have e2 : 1 - (l.length - (l.length - 10)) = 0 := by omega
    have e3 : (l ++ [p]).length - 10 - l.length = 0 := by
      simp only [List.length_append, List.length_cons, List.length_nil]
      omega
    rw [e1, e2, e3]
  · rw [if_neg (by
      simp only [List.length_append, hlen, List.length_cons,
        List.length_nil]
      omega)]
    have e0 : l.length - 10 = 0 := by omega
    have e1 : (l ++ [p]).length - 10 = 0 := by
      simp only [List.length_append, List.length_cons, List.length_nil]
      omega
    rw [e0, e1]
    simp

theorem update_history_window (a : AIAgent) (p b : String)
    (h : a.last_moves =
      a.opponent_history.drop (a.opponent_history.length - 10)) :
    (update_history a p b).last_moves =
      (update_history a p b).opponent_history.drop
        ((update_history a p b).opponent_history.length - 10) := by
  simp only [update_history]
  rw [h]
  exact window_step a.opponent_history p

theorem recordRounds_window (rounds : List (String × String)) (a : AIAgent)
    (h : a.last_moves =
      a.opponent_history.drop (a.opponent_history.length - 10)) :
    (recordRounds a rounds).last_moves =
      (recordRounds a rounds).opponent_history.drop
        ((recordRounds a rounds).opponent_history.length - 10) := by
  induction rounds generalizing a with
  | nil => exact h
  | cons r rs ih =>
    show (recordRounds (update_history a r.1 r.2) rs).last_moves = _
    exact ih _ (update_history_window a r.1 r.2 h)

/-- C6: after N recorded rounds from a fresh or reset engine, both histories
are exactly the per-round move sequences (hence length N and index-aligned),
each `update_history` call grows each history by exactly one element, and the
recency window is the suffix of the opponent history of length min(N, 10).
`get_ai_move` is embedded as a pure function of the agent state (the source
method only reads `self`), so it leaves all of these unchanged by
construction. -/
theorem histories_aligned_after_recording (a0 : AIAgent)
    (rounds : List (String × String))
    (h0 : a0.opponent_history = [] ∧ a0.move_history = [] ∧
      a0.last_moves = []) :
    (recordRounds a0 rounds).opponent_history = rounds.map Prod.fst ∧
    (recordRounds a0 rounds).move_history = rounds.map Prod.snd ∧
    (recordRounds a0 rounds).opponent_history.length = rounds.length ∧
    (recordRounds a0 rounds).move_history.length = rounds.length ∧
    (recordRounds a0 rounds).last_moves =
      (rounds.map Prod.fst).drop (rounds.length - 10) ∧
    (recordRounds a0 rounds).last_moves.length = min rounds.length 10 ∧
    (∀ (b : AIAgent) (q1 q2 : String),
      (update_history b q1 q2).opponent_history.length =
          b.opponent_history.length + 1 ∧
        (update_history b q1 q2).move_history.length =
          b.move_history.length + 1) := by
  obtain ⟨h1, h2, h3⟩ := h0
  have ho := recordRounds_opponent_history rounds a0
  rw [h1, List.nil_append] at ho
  have hm := recordRounds_move_history rounds a0
  rw [h2, List.nil_append] at hm
  have hw := recordRounds_window rounds a0 (by rw [h3, h1]; simp)
  rw [ho, List.length_map] at hw
  have hlenw : ((rounds.map Prod.fst).drop (rounds.length - 10)).length =
      min rounds.length 10 := by
    rw [List.length_drop, List.length_map]; omega
  exact ⟨ho, hm, by rw [ho, List.length_map], by rw [hm, List.length_map],
    hw, by rw [hw, hlenw], fun b q1 q2 => by simp [update_history]⟩

theorem histories_aligned_after_recording_witness :
    (recordRounds (AIAgent.make "hard")
        [("rock", "rock"), ("paper", "rock"), ("scissors", "rock"),
          ("rock", "rock"), ("paper", "rock"), ("scissors", "rock"),
          ("rock", "rock"), ("paper", "rock"), ("scissors", "rock"),
          ("rock", "rock"), ("paper", "rock"), ("scissors", "rock")]).last_moves =
      (([("rock", "rock"), ("paper", "rock"), ("scissors", "rock"),
          ("rock", "rock"), ("paper", "rock"), ("scissors", "rock"),
          ("rock", "rock"), ("paper", "rock"), ("scissors", "rock"),
          ("rock", "rock"), ("paper", "rock"),
          ("scissors", "rock")] : List (String × String)).map
        Prod.fst).drop (12 - 10) :=
  (histories_aligned_after_recording (AIAgent.make "hard")
    [("rock", "rock"), ("paper", "rock"), ("scissors", "rock"),
      ("rock", "rock"), ("paper", "rock"), ("scissors", "rock"),
      ("rock", "rock"), ("paper", "rock"), ("scissors", "rock"),
      ("rock", "rock"), ("paper", "rock"), ("scissors", "rock")]
    ⟨rfl, rfl, rfl⟩).2.2.2.2.1

theorem analyze_patterns_isSome (hist : List String)
    (h : hist = [] ∨ ∃ m ∈ hist,
      m = "rock" ∨ m = "paper" ∨ m = "scissors") :
    (analyze_patterns hist).isSome = true := by
  unfold analyze_patterns
  rcases h with h | ⟨m, hm, hcase⟩
  · simp [h]
  · have hne : hist ≠ [] := by rintro rfl; simp at hm
    rw [if_neg hne]
    have hpos : hist.count "rock" + hist.count "paper" +
        hist.count "scissors" ≠ 0 := by
      rcases hcase with rfl | rfl | rfl
      · have := List.count_pos_iff.mpr hm; omega
      · have := List.count_pos_iff.mpr hm; omega
      · have := List.count_pos_iff.mpr hm; omega
    simp [hpos]

theorem detect_repeating_pattern_mem (a : AIAgent) (pm : String)
    (h : detect_repeating_pattern a = some pm) : pm ∈ VALID_MOVES := by
  unfold detect_repeating_pattern at h
  by_cases h1 : pattern_length ≤ a.last_moves.length
  · rw [if_pos h1] at h
    by_cases h2 : 2 ≤ patternCount a.opponent_history
        (a.last_moves.drop (a.last_moves.length - pattern_length))
    · rw [if_pos h2] at h
      by_cases h3 : pattern_length % 3 < a.last_moves.length
      · rw [if_pos h3] at h
        simp only [Option.some.injEq] at h
        exact h ▸ get_counter_move_mem _
      · rw [if_neg h3] at h; exact absurd h (by simp)
    · rw [if_neg h2] at h; exact absurd h (by simp)
  · rw [if_neg h1] at h; exact absurd h (by simp)

theorem strategies234_mem (a : AIAgent) (bbu : Bool) (rs : ℕ → ℚ) (k : ℕ)
    (pick : Fin 3) (f : ℚ × ℚ × ℚ)
    (hf : analyze_patterns a.opponent_history = some f) :
    ∃ m ∈ VALID_MOVES, strategies234 a bbu rs k pick = some m := by
  by_cases h1 : bbu = false ∧ 2 ≤ a.opponent_history.length
  · by_cases h2 : bot_wins a < a.opponent_history.length / 2
    · by_cases h3 : rs k < 2/5
      · exact ⟨"bomb", by decide,
          by simp [strategies234, hf, h1.1, h1.2, h2, h3]⟩
      · refine ⟨difficulty_move a.difficulty
            (get_counter_move (argmax3 f.1 f.2.1 f.2.2)) (rs (k+1))
            (rs (k+2)) pick,
          difficulty_move_mem _ _ _ _ _ (get_counter_move_mem _), ?_⟩
        simp [strategies234, hf, h1.1, h1.2, h2, h3]
    · refine ⟨difficulty_move a.difficulty
          (get_counter_move (argmax3 f.1 f.2.1 f.2.2)) (rs k)
          (rs (k+1)) pick,
        difficulty_move_mem _ _ _ _ _ (get_counter_move_mem _), ?_⟩
      simp [strategies234, hf, h1.1, h1.2, h2]
  · refine ⟨difficulty_move a.difficulty
        (get_counter_move (argmax3 f.1 f.2.1 f.2.2)) (rs k)
        (rs (k+1)) pick,
      difficulty_move_mem _ _ _ _ _ (get_counter_move_mem _), ?_⟩
    simp [strategies234, hf, h1]

/-- C5 counterexample: on the validly recorded single-round history where the
player's move is "bomb", `get_ai_move` raises (`none`) rather than returning
a move from the four-move set, so the unrestricted claim fails. -/
theorem get_ai_move_none_on_bomb_only_history :
    get_ai_move
      { difficulty := "easy", move_history := ["paper"],
        opponent_history := ["bomb"], last_moves := ["bomb"] }
      false true (fun _ => 0) 0 = none := by decide

/-- C5 (amended): for every difficulty tier, every pair of flags, every
sequence of random draws, and every recorded history of valid moves whose
opponent side is empty or contains at least one non-bomb move, `get_ai_move`
returns a move in {rock, paper, scissors, bomb}. -/
theorem get_ai_move_total_in_move_set (d : String)
    (rounds : List (String × String)) (pbu bbu : Bool) (rs : ℕ → ℚ)
    (pick : Fin 3)
    (hvalid : ∀ r ∈ rounds, r.1 ∈ VALID_MOVES ∧ r.2 ∈ VALID_MOVES)
    (hnb : rounds.map Prod.fst = [] ∨
      ∃ m ∈ rounds.map Prod.fst, m ≠ "bomb") :
    ∃ m ∈ VALID_MOVES,
      get_ai_move (recordRounds (AIAgent.make d) rounds) pbu bbu rs pick =
        some m := by
  have hopp : (recordRounds (AIAgent.make d) rounds).opponent_history =
      rounds.map Prod.fst := by
    rw [recordRounds_opponent_history]
    simp [AIAgent.make]
  have hsome : (analyze_patterns
      (recordRounds (AIAgent.make d) rounds).opponent_history).isSome =
        true := by
    rw [hopp]
    apply analyze_patterns_isSome
    rcases hnb with h | ⟨m, hm, hne⟩
    · exact Or.inl h
    · refine Or.inr ⟨m, hm, ?_⟩
      obtain ⟨r, hr, hfst⟩ := List.mem_map.mp hm
      have hv := (hvalid r hr).1
      rw [hfst] at hv
      simp only [VALID_MOVES, List.mem_cons, List.not_mem_nil,
        or_false] at hv
      rcases hv with h | h | h | h
      · exact Or.inl h
      · exact Or.inr (Or.inl h)
      · exact Or.inr (Or.inr h)
      · exact absurd h hne
  obtain ⟨f, hf⟩ := Option.isSome_iff_exists.mp hsome
  cases hdet : detect_repeating_pattern (recordRounds (AIAgent.make d) rounds)
    with
  | some pm =>
    by_cases hg : rs 0 < 3/5
    · exact ⟨pm, detect_repeating_pattern_mem _ pm hdet,
        by simp [get_ai_move, hdet, hg]⟩
    · obtain ⟨m, hmem, he⟩ :=
        strategies234_mem (recordRounds (AIAgent.make d) rounds) bbu rs 1
          pick f hf
      exact ⟨m, hmem, by simp [get_ai_move, hdet, hg, he]⟩
  | none =>
    obtain ⟨m, hmem, he⟩ :=
      strategies234_mem (recordRounds (AIAgent.make d) rounds) bbu rs 0
        pick f hf
    exact ⟨m, hmem, by simp [get_ai_move, hdet, he]⟩

theorem get_ai_move_total_in_move_set_witness :
    (∀ r ∈ ([("rock", "paper")] : List (String × String)),
      r.1 ∈ VALID_MOVES ∧ r.2 ∈ VALID_MOVES) ∧
      (∃ m ∈ VALID_MOVES,
        get_ai_move (recordRounds (AIAgent.make "medium") [("rock", "paper")])
          true false (fun _ => 0) 0 = some m) :=
  ⟨by decide, get_ai_move_total_in_move_set "medium" [("rock", "paper")]
    true false (fun _ => 0) 0 (by decide)
    (Or.inr ⟨"rock", by decide, by decide⟩)⟩
